import Mathlib

/-!
Shallow embedding of the neural-network training core of the sensAI
repository (`src/sensai/torch/torch_opt.py`): the `NNOptimiser.fit` epoch
loop, the `_Optimiser` wrapper (gradient shrinkage, learning-rate decay),
the loss evaluators, the CUDA load fallback of `WrappedTorchModule`, and
the vector-model adapters.  Machine floats of the source are modelled as
exact rationals (control flow, bookkeeping) or reals (square roots and
exponentials); tensors are modelled as lists of their scalar entries.
-/

namespace SensAI

deriving instance DecidableEq for Except

/-- State maintained by the epoch loop of `NNOptimiser.fit`: the wrapped
torch model (type parameter `M`, abstracting the mutable network state),
`best_val`, `best_epoch`, `bestModelBytes` (the serialized snapshot taken
by `model.getModelBytes()`, `none` standing for Python `None`), and a
count of fully executed iterations of the epoch loop. -/
structure FitState (M : Type) where
  model : M
  best_val : ℚ
  best_epoch : ℕ
  bestModelBytes : Option M
  epochsRun : ℕ
deriving DecidableEq

/-- One iteration of the `for epoch in range(1, self.epochs + 1)` body of
`NNOptimiser.fit`: run `self._train` once over all training data
(abstracted as the deterministic `trainStep`, the random seed being fixed
to 42 by `fit`), compute the mean validation metric
`metrics[self.lossEvaluator.getValidationMetricName()]` of the resulting
model (abstracted as `metric`), and when `current_val < best_val` record
the new best value and epoch and checkpoint the model bytes. -/
def fitEpochStep {M : Type} (trainStep : M → M) (metric : M → ℚ) (epoch : ℕ)
    (s : FitState M) : FitState M :=
  let m := trainStep s.model
  let current_val := metric m
  if current_val < s.best_val then
    { model := m, best_val := current_val, best_epoch := epoch,
      bestModelBytes := some m, epochsRun := s.epochsRun + 1 }
  else
    { s with model := m, epochsRun := s.epochsRun + 1 }

/-- The loop state before the first epoch of `NNOptimiser.fit`:
`best_val = 1e9`, `best_epoch = 0`, `bestModelBytes = None`. -/
def fitInitState {M : Type} (m0 : M) : FitState M :=
  { model := m0, best_val := 10 ^ 9, best_epoch := 0,
    bestModelBytes := none, epochsRun := 0 }

/-- The loop state of `NNOptimiser.fit` after the first `k` iterations of
the epoch loop (epochs are numbered from 1, as in `range(1, epochs+1)`). -/
def fitStateAfter {M : Type} (trainStep : M → M) (metric : M → ℚ) (m0 : M) :
    ℕ → FitState M
  | 0 => fitInitState m0
  | k + 1 => fitEpochStep trainStep metric (k + 1) (fitStateAfter trainStep metric m0 k)

/-- How many iterations of the epoch loop actually execute: all `epochs`
of them, unless a `KeyboardInterrupt` arrives (modelled as arriving at an
epoch boundary after `k` completed iterations, `interruptAfter = some k`;
the `except KeyboardInterrupt` handler then swallows the exception). -/
def numCompletedEpochs (epochs : ℕ) (interruptAfter : Option ℕ) : ℕ :=
  match interruptAfter with
  | none => epochs
  | some k => min epochs k

/-- The loop state when `NNOptimiser.fit` reaches the code after the
`try`/`except KeyboardInterrupt` block. -/
def fitFinalState {M : Type} (trainStep : M → M) (metric : M → ℚ) (m0 : M)
    (epochs : ℕ) (interruptAfter : Option ℕ) : FitState M :=
  fitStateAfter trainStep metric m0 (numCompletedEpochs epochs interruptAfter)

/-- `self.bestEpoch` as stored at the end of `NNOptimiser.fit` and
returned by `NNOptimiser.getBestEpoch`. -/
def getBestEpoch {M : Type} (trainStep : M → M) (metric : M → ℚ) (m0 : M)
    (epochs : ℕ) (interruptAfter : Option ℕ) : ℕ :=
  (fitFinalState trainStep metric m0 epochs interruptAfter).best_epoch

/-- The bytes installed into the wrapped model by the final
`model.setModelBytes(bestModelBytes)` of `NNOptimiser.fit`; `none` means
`setModelBytes` is handed Python `None` (no checkpoint was ever taken). -/
def fitRestoredModelBytes {M : Type} (trainStep : M → M) (metric : M → ℚ)
    (m0 : M) (epochs : ℕ) (interruptAfter : Option ℕ) : Option M :=
  (fitFinalState trainStep metric m0 epochs interruptAfter).bestModelBytes

/-- One batch processed by `NNOptimiser._train`: the loss value returned
by `optim.step(closure)` for the batch (the backward pass and parameter
update being delegated to the torch framework) and the shape `Y.shape` of
the batch's ground-truth tensor, whose leading entry is the number of data
points in the batch. -/
structure TrainBatch where
  lossValue : ℚ
  yShape : List ℕ
deriving DecidableEq

/-- `functools.reduce(lambda x, y: x * y, outputShape, 1)` as computed by
`NNOptimiser._train` from `outputShape = Y.shape[1:]` of the first batch. -/
def numOutputsPerDataPoint (outputShape : List ℕ) : ℕ :=
  outputShape.foldl (fun x y => x * y) 1

/-- The body of the batch loop of `NNOptimiser._train`, acting on the
accumulator `(total_loss, n_samples, numOutputsPerDataPoint)`; the last
component is `none` until the first batch fixes it from its `Y.shape[1:]`.
The output scaler zipped with each data set in the source only influences
the loss value produced by the closure, which is abstracted into
`lossValue`. -/
def trainBatchStep (st : ℚ × ℕ × Option ℕ) (b : TrainBatch) : ℚ × ℕ × Option ℕ :=
  let k := match st.2.2 with
    | none => numOutputsPerDataPoint (b.yShape.drop 1)
    | some k => k
  (st.1 + b.lossValue, st.2.1 + b.yShape.headD 0 * k, some k)

/-- `NNOptimiser._train`: one epoch over all training data sets, iterating
over every batch of every data set in order and finally returning
`total_loss / n_samples`. -/
def NNOptimiser_train (dataSets : List (List TrainBatch)) : ℚ :=
  let st := dataSets.foldl (fun acc ds => ds.foldl trainBatchStep acc)
    ((0 : ℚ), (0 : ℕ), (none : Option ℕ))
  st.1 / (st.2.1 : ℚ)

/-- Transient validation state of `NNLossEvaluatorClassification`:
`self.totalLossCE` and `self.numValidationSamples`. -/
structure ClsValidationState where
  totalLossCE : ℝ
  numValidationSamples : ℕ

/-- `NNLossEvaluatorClassification.startValidationCollection`: rejects
non-scalar ground-truth shapes, otherwise resets both accumulators to 0. -/
def cls_startValidationCollection (groundTruthShape : List ℕ) :
    Except String ClsValidationState :=
  if groundTruthShape.length ≠ 0 then
    Except.error "Outputs must be scalars, specifically integers indicating the true class indices, not tensors"
  else
    Except.ok { totalLossCE := 0, numValidationSamples := 0 }

/-- `NNLossEvaluatorClassification.collectValidationResultBatch`: adds the
batch's summed cross-entropy loss `self.evaluateCE(output, groundTruth).item()`
(abstracted as `batchSummedCELoss`, the torch criterion with
`reduction="sum"`) and the batch size `output.shape[0]`. -/
def cls_collectValidationResultBatch (s : ClsValidationState)
    (batchSummedCELoss : ℝ) (batchSize : ℕ) : ClsValidationState :=
  { totalLossCE := s.totalLossCE + batchSummedCELoss,
    numValidationSamples := s.numValidationSamples + batchSize }

/-- `NNLossEvaluatorClassification.endValidationCollection`: the ordered
dictionary `[("CE", ce), ("GeoMeanProbTrueClass", exp(-ce))]` with
`ce = totalLossCE / numValidationSamples`. -/
noncomputable def cls_endValidationCollection (s : ClsValidationState) :
    List (String × ℝ) :=
  let ce := s.totalLossCE / (s.numValidationSamples : ℝ)
  [("CE", ce), ("GeoMeanProbTrueClass", Real.exp (-ce))]

/-- `WrappedTorchModule._loadModel`.  `torchLoad mapLocationCpu position`
abstracts `torch.load` reading the model file at the given stream position
(with or without `map_location='cpu'`); `isStrPath` tells whether
`modelFile` is a `str` path (in which case no seek is performed) rather
than a file object at stream position `pos`.  The result carries the
loaded model together with the instance's CUDA flag after the call. -/
def WrappedTorchModule_loadModel {E M : Type} (cuda : Bool) (isStrPath : Bool)
    (pos : ℕ) (torchLoad : Bool → ℕ → Except E M) : Except E (M × Bool) :=
  match torchLoad false pos with
  | Except.ok m => Except.ok (m, cuda)
  | Except.error e =>
    if cuda then
      let pos' := if isStrPath then pos else 0
      match torchLoad true pos' with
      | Except.ok m => Except.ok (m, false)
      | Except.error e2 => Except.error e2
    else
      Except.error e

/-- A concrete `torch.load` stand-in used to instantiate the load-fallback
theorem: loading succeeds exactly when retried with `map_location='cpu'`
from stream position 0. -/
def fixtureTorchLoad (mapLocationCpu : Bool) (pos : ℕ) : Except ℕ ℕ :=
  if mapLocationCpu ∧ pos = 0 then Except.ok 7 else Except.error 1

/-- The Euclidean norm `tensor.norm()` of a (flattened) torch tensor. -/
noncomputable def tensorNorm (t : List ℝ) : ℝ :=
  Real.sqrt ((t.map (fun x => x ^ 2)).sum)

/-- The accumulator `grad_norm` of `_Optimiser.step` before the square
root: `sum(math.pow(param.grad.data.norm(), 2) for param in params)`,
each parameter's gradient being a (flattened) tensor. -/
noncomputable def gradNormAccum (params : List (List ℝ)) : ℝ :=
  (params.map (fun p => tensorNorm p ^ 2)).sum

/-- `grad_norm = math.sqrt(grad_norm)` of `_Optimiser.step`: the total
gradient norm over all parameters. -/
noncomputable def gradNorm (params : List (List ℝ)) : ℝ :=
  Real.sqrt (gradNormAccum params)

/-- The gradient-shrinkage part of `closureWithShrinkage` in
`_Optimiser.step`: compute the total gradient norm, set
`shrinkage = max_grad_norm / grad_norm` when the norm is positive (else 1),
and multiply every parameter gradient by `shrinkage` when `shrinkage < 1`.
Takes the gradients left by the backward pass and returns the gradients
seen by the torch optimizer. -/
noncomputable def stepShrinkage (max_grad_norm : ℝ) (params : List (List ℝ)) :
    List (List ℝ) :=
  let grad_norm := gradNorm params
  let shrinkage := if grad_norm > 0 then max_grad_norm / grad_norm else (1 : ℝ)
  params.map (fun p => if shrinkage < 1 then p.map (fun x => x * shrinkage) else p)

/-- `_Optimiser.step`: with `use_shrinkage` the closure applies the
shrinkage transformation to the gradients; without it the gradients of the
backward pass reach the torch optimizer unchanged. -/
noncomputable def Optimiser_step (use_shrinkage : Bool) (max_grad_norm : ℝ)
    (params : List (List ℝ)) : List (List ℝ) :=
  if use_shrinkage then stepShrinkage max_grad_norm params else params

/-- The bookkeeping state of `_Optimiser`: the fields set by `__init__`
plus `optimizerLr`, the learning rate the underlying torch optimizer was
last constructed with by `_makeOptimizer` (`none` before construction). -/
structure OptimiserParamsState where
  lr : ℚ
  max_grad_norm : ℚ
  method : String
  lr_decay : ℚ
  start_decay_at : Option ℤ
  start_decay : Bool
  last_ppl : Option ℚ
  use_shrinkage : Bool
  optimizerLr : Option ℚ
deriving DecidableEq

/-- The optimiser method identifiers accepted by the non-LBFGS branches of
`_Optimiser._makeOptimizer`. -/
def validOptimMethods : List String :=
  ["sgd", "asgd", "adagrad", "adadelta", "adam", "adamw", "adamax", "rmsprop", "rprop"]

/-- `_Optimiser._makeOptimizer`: rebuild the torch optimizer with
`optimiserArgs` updated to the current `self.lr`; the `lbfgs` branch also
sets `self.use_shrinkage = False`; unknown methods raise `RuntimeError`. -/
def Optimiser_makeOptimizer (s : OptimiserParamsState) :
    Except String OptimiserParamsState :=
  if validOptimMethods.contains s.method then
    Except.ok { s with optimizerLr := some s.lr }
  else if s.method = "lbfgs" then
    Except.ok { s with use_shrinkage := false, optimizerLr := some s.lr }
  else
    Except.error ("Invalid optim method: " ++ s.method)

/-- `_Optimiser.__init__`: record the parameters, initialise
`last_ppl = None`, `start_decay = False`, `use_shrinkage = True`, and call
`_makeOptimizer`. -/
def Optimiser_init (method : String) (lr : ℚ) (max_grad_norm : ℚ)
    (lr_decay : ℚ) (start_decay_at : Option ℤ) :
    Except String OptimiserParamsState :=
  Optimiser_makeOptimizer
    { lr := lr, max_grad_norm := max_grad_norm, method := method,
      lr_decay := lr_decay, start_decay_at := start_decay_at,
      start_decay := false, last_ppl := none, use_shrinkage := true,
      optimizerLr := none }

/-- `_Optimiser.updateLearningRate(ppl, epoch)`: set `start_decay` when
`start_decay_at` is reached or the new `ppl` exceeds `last_ppl`, decay the
learning rate when the flag is set, reset the flag, record `ppl`, and
rebuild the torch optimizer. -/
def Optimiser_updateLearningRate (s : OptimiserParamsState) (ppl : ℚ)
    (epoch : ℤ) : Except String OptimiserParamsState :=
  let s1 := match s.start_decay_at with
    | some a => if epoch ≥ a then { s with start_decay := true } else s
    | none => s
  let s2 := match s1.last_ppl with
    | some lp => if ppl > lp then { s1 with start_decay := true } else s1
    | none => s1
  let s3 := if s2.start_decay then { s2 with lr := s2.lr * s2.lr_decay } else s2
  let s4 := { s3 with start_decay := false, last_ppl := some ppl }
  Optimiser_makeOptimizer s4

/-- The loss functions of `NNLossEvaluatorRegression.LossFunction`. -/
inductive RegressionLossFunction
  | L1LOSS
  | L2LOSS
  | MSELOSS
  | SMOOTHL1LOSS
deriving DecidableEq

/-- The loss functions of `NNLossEvaluatorClassification.LossFunction`. -/
inductive ClassificationLossFunction
  | CROSSENTROPY
deriving DecidableEq

/-- A configured `NNLossEvaluator` instance: either the regression
evaluator or the classification evaluator, with its loss function. -/
inductive NNLossEvaluatorSpec
  | regression (lossFn : RegressionLossFunction)
  | classification (lossFn : ClassificationLossFunction)
deriving DecidableEq

/-- The fields of `NNOptimiser` relevant to construction. -/
structure NNOptimiserState where
  lossEvaluator : NNLossEvaluatorSpec
  optimiser : String
  batchSize : ℚ
deriving DecidableEq

/-- `NNOptimiser.__init__`: for `optimiser='lbfgs'` any supplied batch size
is replaced by `1e12`, otherwise an absent batch size defaults to 64; a
missing loss evaluator raises `ValueError` (the only raise in the
constructor). -/
def NNOptimiser_init (lossEvaluator : Option NNLossEvaluatorSpec)
    (optimiser : String) (batchSize : Option ℚ) : Except String NNOptimiserState :=
  let batchSize' : ℚ :=
    if optimiser = "lbfgs" then 10 ^ 12
    else match batchSize with
      | none => 64
      | some b => b
  match lossEvaluator with
  | none => Except.error "Must provide a loss evaluator"
  | some le => Except.ok { lossEvaluator := le, optimiser := optimiser, batchSize := batchSize' }

/-- The `lossEvaluator` entry of `nnOptimiserParams` after the guard in
`TorchVectorRegressionModel.__init__`.  The outer `Option` records whether
the key is present in the dict; the inner one is the value (Python `None`
allowed). -/
def torchVectorRegressionModel_lossEvaluatorParam
    (p : Option (Option NNLossEvaluatorSpec)) : Option NNLossEvaluatorSpec :=
  match p with
  | none => some (NNLossEvaluatorSpec.regression RegressionLossFunction.MSELOSS)
  | some v => v

/-- The `lossEvaluator` entry of `nnOptimiserParams` after the guard in
`TorchVectorClassificationModel.__init__`. -/
def torchVectorClassificationModel_lossEvaluatorParam
    (p : Option (Option NNLossEvaluatorSpec)) : Option NNLossEvaluatorSpec :=
  match p with
  | none => some (NNLossEvaluatorSpec.classification ClassificationLossFunction.CROSSENTROPY)
  | some v => v

/-- `TorchVectorClassificationModel._predictClassProbabilities`: the raw
model outputs (one row per input data point) are divided row-wise by their
precomputed row sums `y.sum(axis=1)`. -/
def TorchVectorClassificationModel_predictClassProbabilities
    (rows : List (List ℚ)) : List (List ℚ) :=
  rows.map (fun y => y.map (fun x => x / y.sum))

theorem fitEpochStep_pos {M : Type} (f : M → M) (v : M → ℚ) (epoch : ℕ)
    (s : FitState M) (h : v (f s.model) < s.best_val) :
    fitEpochStep f v epoch s =
      { model := f s.model, best_val := v (f s.model), best_epoch := epoch,
        bestModelBytes := some (f s.model), epochsRun := s.epochsRun + 1 } := by
  simp [fitEpochStep, h]

theorem fitEpochStep_neg {M : Type} (f : M → M) (v : M → ℚ) (epoch : ℕ)
    (s : FitState M) (h : ¬ v (f s.model) < s.best_val) :
    fitEpochStep f v epoch s =
      { s with model := f s.model, epochsRun := s.epochsRun + 1 } := by
  simp [fitEpochStep, h]

theorem fitStateAfter_model {M : Type} (f : M → M) (v : M → ℚ) (m0 : M) (k : ℕ) :
    (fitStateAfter f v m0 k).model = f^[k] m0 := by
  induction k with
  | zero => simp [fitStateAfter, fitInitState]
  | succ k ih =>
    show (fitEpochStep f v (k + 1) (fitStateAfter f v m0 k)).model = _
    by_cases h : v (f (fitStateAfter f v m0 k).model) < (fitStateAfter f v m0 k).best_val
    · rw [fitEpochStep_pos f v _ _ h]
      simp [ih, Function.iterate_succ_apply']
    · rw [fitEpochStep_neg f v _ _ h]
      simp [ih, Function.iterate_succ_apply']

theorem fitStateAfter_epochsRun {M : Type} (f : M → M) (v : M → ℚ) (m0 : M) (k : ℕ) :
    (fitStateAfter f v m0 k).epochsRun = k := by
  induction k with
  | zero => rfl
  | succ k ih =>
    show (fitEpochStep f v (k + 1) (fitStateAfter f v m0 k)).epochsRun = _
    by_cases h : v (f (fitStateAfter f v m0 k).model) < (fitStateAfter f v m0 k).best_val
    · rw [fitEpochStep_pos f v _ _ h]; simp [ih]
    · rw [fitEpochStep_neg f v _ _ h]; simp [ih]

theorem fitStateAfter_invariant {M : Type} (f : M → M) (v : M → ℚ) (m0 : M) (k : ℕ) :
    ((fitStateAfter f v m0 k).best_epoch = 0 ∧
     (fitStateAfter f v m0 k).bestModelBytes = none ∧
     (fitStateAfter f v m0 k).best_val = 10 ^ 9 ∧
     ∀ i, 1 ≤ i → i ≤ k → (10 ^ 9 : ℚ) ≤ v (f^[i] m0)) ∨
    (1 ≤ (fitStateAfter f v m0 k).best_epoch ∧
     (fitStateAfter f v m0 k).best_epoch ≤ k ∧
     (fitStateAfter f v m0 k).bestModelBytes =
       some (f^[(fitStateAfter f v m0 k).best_epoch] m0) ∧
     (fitStateAfter f v m0 k).best_val =
       v (f^[(fitStateAfter f v m0 k).best_epoch] m0) ∧
     (fitStateAfter f v m0 k).best_val < 10 ^ 9 ∧
     ∀ i, 1 ≤ i → i ≤ k → (fitStateAfter f v m0 k).best_val ≤ v (f^[i] m0)) := by
  induction k with
  | zero =>
    left
    refine ⟨rfl, rfl, rfl, ?_⟩
    intro i h1 h2
    omega
  | succ k ih =>
    have hm : f (fitStateAfter f v m0 k).model = f^[k + 1] m0 := by
      rw [fitStateAfter_model]
      exact (Function.iterate_succ_apply' f k m0).symm
    by_cases h : v (f (fitStateAfter f v m0 k).model) < (fitStateAfter f v m0 k).best_val
    · right
      have hstep := fitEpochStep_pos f v (k + 1) (fitStateAfter f v m0 k) h
      have hlt : v (f^[k + 1] m0) < 10 ^ 9 := by
        rcases ih with ⟨_, _, hval, _⟩ | ⟨_, _, _, _, hval, _⟩
        · rw [← hm, ← hval]; exact h
        · rw [← hm]; exact lt_trans h hval
      simp only [fitStateAfter]
      rw [hstep]
      dsimp only
      refine ⟨by omega, le_refl _, by rw [hm], by rw [hm], by rw [hm]; exact hlt, ?_⟩
      intro i h1 h2
      rw [hm]
      by_cases hik : i ≤ k
      · rcases ih with ⟨_, _, hval, hall⟩ | ⟨_, _, _, _, _, hall⟩
        · have hi := hall i h1 hik
          calc v (f^[k + 1] m0) ≤ 10 ^ 9 := le_of_lt hlt
            _ ≤ v (f^[i] m0) := hi
        · have hi := hall i h1 hik
          have hstrict : v (f^[k + 1] m0) < (fitStateAfter f v m0 k).best_val := by
            rw [← hm]; exact h
          exact le_trans (le_of_lt hstrict) hi
      · have hieq : i = k + 1 := by omega
        subst hieq
        exact le_refl _
    · have hstep := fitEpochStep_neg f v (k + 1) (fitStateAfter f v m0 k) h
      have hge : (fitStateAfter f v m0 k).best_val ≤ v (f^[k + 1] m0) := by
        rw [← hm]; exact not_lt.mp h
      simp only [fitStateAfter]
      rw [hstep]
      dsimp only
      rcases ih with ⟨hbe, hbb, hval, hall⟩ | ⟨hbe1, hbek, hbb, hbv, hlt, hall⟩
      · left
        refine ⟨hbe, hbb, hval, ?_⟩
        intro i h1 h2
        by_cases hik : i ≤ k
        · exact hall i h1 hik
        · have hieq : i = k + 1 := by omega
          subst hieq
          rw [← hval]; exact hge
      · right
        refine ⟨hbe1, le_trans hbek (Nat.le_succ k), hbb, hbv, hlt, ?_⟩
        intro i h1 h2
        by_cases hik : i ≤ k
        · exact hall i h1 hik
        · have hieq : i = k + 1 := by omega
          subst hieq
          exact hge

/-- C1 (counterexample): with a constant validation metric (the metric
improves at epoch 1 and then never again), `epochs = 5` and no interrupt,
the epoch loop of `NNOptimiser.fit` still executes all 5 iterations — it
does not terminate before reaching the configured number of epochs, so a
stagnating validation metric does not end the loop early. -/
theorem fit_epoch_loop_never_stops_early_counterexample :
    (fitFinalState (fun n => n) (fun _ => (1 : ℚ)) (0 : ℕ) 5 none).epochsRun = 5 ∧
    ¬ (fitFinalState (fun n => n) (fun _ => (1 : ℚ)) (0 : ℕ) 5 none).epochsRun < 5 := by
  decide

/-- C1 (amended): for every training run of `NNOptimiser.fit` — whatever
the training dynamics and validation metric — the epoch loop executes
exactly `self.epochs` iterations unless interrupted by `KeyboardInterrupt`;
the best validation metric only drives checkpointing, never early
termination of the loop. -/
theorem fit_runs_all_epochs {M : Type} (trainStep : M → M) (metric : M → ℚ)
    (m0 : M) (epochs : ℕ) :
    (fitFinalState trainStep metric m0 epochs none).epochsRun = epochs :=
  fitStateAfter_epochsRun trainStep metric m0 epochs

/-- C2 (counterexample): with a single epoch whose validation metric is
`2e9`, never beating the initial `best_val = 1e9`, `fit` ends with
`getBestEpoch` returning 0 — which is not a completed epoch (the only
completed epoch is 1) — and `model.setModelBytes` is called with Python
`None` since no checkpoint was ever taken, rather than restoring bytes
checkpointed at a minimising epoch. -/
theorem fit_best_epoch_init_counterexample :
    getBestEpoch (fun n => n) (fun _ => (2000000000 : ℚ)) (0 : ℕ) 1 none = 0 ∧
    ¬ 1 ≤ getBestEpoch (fun n => n) (fun _ => (2000000000 : ℚ)) (0 : ℕ) 1 none ∧
    fitRestoredModelBytes (fun n => n) (fun _ => (2000000000 : ℚ)) (0 : ℕ) 1 none = none := by
  decide

/-- C2 (amended): provided some completed epoch attains a validation
metric below the initial best value `1e9`, then after `NNOptimiser.fit`
returns (whether the loop completed all epochs or was ended early by
`KeyboardInterrupt`), `getBestEpoch` is a completed epoch at which the
validation metric attained its minimum over all completed epochs, and the
wrapped model's weights are restored via `setModelBytes` to the bytes
checkpointed at that epoch. -/
theorem fit_best_epoch_checkpoint_restore {M : Type} (trainStep : M → M)
    (metric : M → ℚ) (m0 : M) (epochs : ℕ) (interruptAfter : Option ℕ)
    (hex : ∃ i, 1 ≤ i ∧ i ≤ numCompletedEpochs epochs interruptAfter ∧
      metric (trainStep^[i] m0) < 10 ^ 9) :
    (1 ≤ getBestEpoch trainStep metric m0 epochs interruptAfter ∧
      getBestEpoch trainStep metric m0 epochs interruptAfter ≤
        numCompletedEpochs epochs interruptAfter) ∧
    (∀ i, 1 ≤ i → i ≤ numCompletedEpochs epochs interruptAfter →
      metric (trainStep^[getBestEpoch trainStep metric m0 epochs interruptAfter] m0) ≤
        metric (trainStep^[i] m0)) ∧
    fitRestoredModelBytes trainStep metric m0 epochs interruptAfter =
      some (trainStep^[getBestEpoch trainStep metric m0 epochs interruptAfter] m0) := by
  obtain ⟨i, hi1, hin, hilt⟩ := hex
  simp only [getBestEpoch, fitRestoredModelBytes, fitFinalState]
  have hinv := fitStateAfter_invariant trainStep metric m0
    (numCompletedEpochs epochs interruptAfter)
  rcases hinv with ⟨_, _, _, hall⟩ | ⟨hbe1, hbek, hbb, hbv, _, hall⟩
  · exact absurd (hall i hi1 hin) (not_le.mpr hilt)
  · refine ⟨⟨hbe1, hbek⟩, ?_, hbb⟩
    intro j hj1 hjn
    have := hall j hj1 hjn
    rw [← hbv]
    exact this

/-- Witness for `fit_best_epoch_checkpoint_restore`: three epochs with
metric values 1, 2, 3 (model state counts the epochs); epoch 1 is the
minimising epoch and its checkpoint is restored. -/
theorem fit_best_epoch_checkpoint_restore_witness :
    (∃ i, 1 ≤ i ∧ i ≤ numCompletedEpochs 3 none ∧
      ((Nat.succ^[i] 0 : ℕ) : ℚ) < 10 ^ 9) ∧
    ((1 ≤ getBestEpoch Nat.succ (fun n => ((n : ℕ) : ℚ)) 0 3 none ∧
      getBestEpoch Nat.succ (fun n => ((n : ℕ) : ℚ)) 0 3 none ≤
        numCompletedEpochs 3 none) ∧
    (∀ i, 1 ≤ i → i ≤ numCompletedEpochs 3 none →
      ((Nat.succ^[getBestEpoch Nat.succ (fun n => ((n : ℕ) : ℚ)) 0 3 none] 0 : ℕ) : ℚ) ≤
        ((Nat.succ^[i] 0 : ℕ) : ℚ)) ∧
    fitRestoredModelBytes Nat.succ (fun n => ((n : ℕ) : ℚ)) 0 3 none =
      some (Nat.succ^[getBestEpoch Nat.succ (fun n => ((n : ℕ) : ℚ)) 0 3 none] 0)) :=
  ⟨⟨1, by decide⟩,
    fit_best_epoch_checkpoint_restore Nat.succ (fun n => ((n : ℕ) : ℚ)) 0 3 none
      ⟨1, by decide⟩⟩

theorem trainFold_some (l : List TrainBatch) (t : ℚ) (n : ℕ) (k : ℕ) :
    l.foldl trainBatchStep (t, n, some k) =
      (t + (l.map TrainBatch.lossValue).sum,
       n + (l.map (fun b => b.yShape.headD 0)).sum * k, some k) := by
  induction l generalizing t n with
  | nil => simp
  | cons b bs ih =>
    simp only [List.foldl_cons, trainBatchStep, List.map_cons, List.sum_cons]
    rw [ih]
    simp only [Prod.mk.injEq]
    refine ⟨by ring, ?_, trivial⟩
    rw [Nat.add_mul]
    omega

theorem trainFold_none (l : List TrainBatch) (k : ℕ)
    (hk : ∀ b ∈ l, numOutputsPerDataPoint (b.yShape.drop 1) = k) (t : ℚ) (n : ℕ) :
    l.foldl trainBatchStep (t, n, none) =
      (t + (l.map TrainBatch.lossValue).sum,
       n + (l.map (fun b => b.yShape.headD 0)).sum * k,
       if l = [] then none else some k) := by
  cases l with
  | nil => simp
  | cons b bs =>
    have hb := hk b (List.mem_cons_self b bs)
    simp only [List.foldl_cons, trainBatchStep, hb, List.map_cons, List.sum_cons]
    rw [trainFold_some]
    rw [if_neg (List.cons_ne_nil b bs)]
    simp only [Prod.mk.injEq]
    refine ⟨by ring, ?_, trivial⟩
    rw [Nat.add_mul]
    omega

theorem trainFoldOuter_some (dss : List (List TrainBatch)) (t : ℚ) (n : ℕ) (k : ℕ) :
    dss.foldl (fun acc ds => ds.foldl trainBatchStep acc) (t, n, some k) =
      (t + (dss.flatten.map TrainBatch.lossValue).sum,
       n + (dss.flatten.map (fun b => b.yShape.headD 0)).sum * k, some k) := by
  induction dss generalizing t n with
  | nil => simp
  | cons ds dss ih =>
    simp only [List.foldl_cons]
    rw [trainFold_some ds t n k, ih]
    simp only [List.flatten_cons, List.map_append, List.sum_append, Prod.mk.injEq]
    refine ⟨by ring, ?_, trivial⟩
    rw [Nat.add_mul]
    omega

theorem trainFoldOuter_none (dss : List (List TrainBatch)) (k : ℕ)
    (hk : ∀ b ∈ dss.flatten, numOutputsPerDataPoint (b.yShape.drop 1) = k)
    (t : ℚ) (n : ℕ) :
    dss.foldl (fun acc ds => ds.foldl trainBatchStep acc) (t, n, none) =
      (t + (dss.flatten.map TrainBatch.lossValue).sum,
       n + (dss.flatten.map (fun b => b.yShape.headD 0)).sum * k,
       if dss.flatten = [] then none else some k) := by
  induction dss generalizing t n with
  | nil => simp
  | cons ds dss ih =>
    have hkds : ∀ b ∈ ds, numOutputsPerDataPoint (b.yShape.drop 1) = k := by
      intro b hb
      exact hk b (by simp [hb])
    have hkdss : ∀ b ∈ dss.flatten, numOutputsPerDataPoint (b.yShape.drop 1) = k := by
      intro b hb
      exact hk b (by simp [hb])
    simp only [List.foldl_cons]
    by_cases hds : ds = []
    · subst hds
      simp only [List.foldl_nil, List.flatten_cons, List.nil_append]
      exact ih hkdss t n
    · rw [trainFold_none ds k hkds t n, if_neg hds, trainFoldOuter_some]
      have hflat : (ds :: dss).flatten ≠ [] := by
        simp only [List.flatten_cons]
        intro hcontra
        exact hds (List.append_eq_nil.mp hcontra).1
      rw [if_neg hflat]
      simp only [List.flatten_cons, List.map_append, List.sum_append, Prod.mk.injEq]
      refine ⟨by ring, ?_, trivial⟩
      rw [Nat.add_mul]
      omega

/-- C6: `NNOptimiser._train` is one full pass over the training data: it
processes every batch yielded by every training data set exactly once
(each batch's loss and data-point count enter the two accumulators exactly
once, in order) and returns the accumulated total loss divided by the
total number of output values processed — the total number of data points
times the number `k` of outputs per data point (well defined here, all
batches sharing the same per-data-point output shape product). -/
theorem NNOptimiser_train_spec (dataSets : List (List TrainBatch)) (k : ℕ)
    (hk : ∀ b ∈ dataSets.flatten, numOutputsPerDataPoint (b.yShape.drop 1) = k) :
    NNOptimiser_train dataSets =
      ((dataSets.flatten.map TrainBatch.lossValue).sum) /
        (((dataSets.flatten.map (fun b => b.yShape.headD 0)).sum * k : ℕ) : ℚ) := by
  unfold NNOptimiser_train
  rw [trainFoldOuter_none dataSets k hk 0 0]
  simp

/-- Witness for `NNOptimiser_train_spec`: two data sets with one batch
each (losses 2 and 4, batch sizes 3 and 1, output shape `[2]`); the epoch
loss is `(2 + 4) / ((3 + 1) * 2) = 3/4`. -/
theorem NNOptimiser_train_spec_witness :
    (∀ b ∈ ([[⟨2, [3, 2]⟩], [⟨4, [1, 2]⟩]] : List (List TrainBatch)).flatten,
      numOutputsPerDataPoint (b.yShape.drop 1) = 2) ∧
    NNOptimiser_train [[⟨2, [3, 2]⟩], [⟨4, [1, 2]⟩]] =
      ((([[⟨2, [3, 2]⟩], [⟨4, [1, 2]⟩]] : List (List TrainBatch)).flatten.map
          TrainBatch.lossValue).sum) /
        (((([[⟨2, [3, 2]⟩], [⟨4, [1, 2]⟩]] : List (List TrainBatch)).flatten.map
            (fun b => b.yShape.headD 0)).sum * 2 : ℕ) : ℚ) :=
  ⟨by decide, NNOptimiser_train_spec [[⟨2, [3, 2]⟩], [⟨4, [1, 2]⟩]] 2 (by decide)⟩

theorem cls_foldl_collect (batches : List (ℝ × ℕ)) (t : ℝ) (n : ℕ) :
    batches.foldl (fun s b => cls_collectValidationResultBatch s b.1 b.2)
        ⟨t, n⟩ =
      ⟨t + (batches.map Prod.fst).sum, n + (batches.map Prod.snd).sum⟩ := by
  induction batches generalizing t n with
  | nil => simp
  | cons b bs ih =>
    rw [List.foldl_cons]
    have hstep : cls_collectValidationResultBatch ⟨t, n⟩ b.1 b.2 =
        ⟨t + b.1, n + b.2⟩ := rfl
    rw [hstep, ih]
    simp only [List.map_cons, List.sum_cons]
    congr 1
    · ring
    · omega

/-- C7: starting from `startValidationCollection` (which requires a scalar
ground-truth shape) and collecting any sequence of validation batches,
`NNLossEvaluatorClassification.endValidationCollection` returns the
ordered dictionary whose `"CE"` entry is the sum of the per-batch summed
cross-entropy losses divided by the total number of validation samples,
and whose `"GeoMeanProbTrueClass"` entry is `exp(-CE)`. -/
theorem cls_endValidationCollection_metrics (shape : List ℕ)
    (s0 : ClsValidationState) (batches : List (ℝ × ℕ))
    (hstart : cls_startValidationCollection shape = Except.ok s0) :
    cls_endValidationCollection
        (batches.foldl (fun s b => cls_collectValidationResultBatch s b.1 b.2) s0) =
      [("CE", (batches.map Prod.fst).sum / (((batches.map Prod.snd).sum : ℕ) : ℝ)),
       ("GeoMeanProbTrueClass",
        Real.exp (-((batches.map Prod.fst).sum / (((batches.map Prod.snd).sum : ℕ) : ℝ))))] := by
  have hs0 : s0 = { totalLossCE := 0, numValidationSamples := 0 } := by
    unfold cls_startValidationCollection at hstart
    split at hstart
    · exact absurd hstart (by simp)
    · exact (Except.ok.inj hstart).symm
  subst hs0
  rw [cls_foldl_collect]
  unfold cls_endValidationCollection
  simp

/-- Witness for `cls_endValidationCollection_metrics`: one batch with
summed cross-entropy loss 3 over 2 samples yields `CE = 3/2` and
`GeoMeanProbTrueClass = exp(-(3/2))`. -/
theorem cls_endValidationCollection_metrics_witness :
    cls_startValidationCollection [] =
      Except.ok { totalLossCE := 0, numValidationSamples := 0 } ∧
    cls_endValidationCollection
        (([((3 : ℝ), (2 : ℕ))]).foldl
          (fun s b => cls_collectValidationResultBatch s b.1 b.2)
          { totalLossCE := 0, numValidationSamples := 0 }) =
      [("CE", (([((3 : ℝ), (2 : ℕ))]).map Prod.fst).sum /
          (((([((3 : ℝ), (2 : ℕ))]).map Prod.snd).sum : ℕ) : ℝ)),
       ("GeoMeanProbTrueClass",
        Real.exp (-((([((3 : ℝ), (2 : ℕ))]).map Prod.fst).sum /
          (((([((3 : ℝ), (2 : ℕ))]).map Prod.snd).sum : ℕ) : ℝ))))] :=
  ⟨rfl, cls_endValidationCollection_metrics [] _ [((3 : ℝ), (2 : ℕ))] rfl⟩

/-- C5: when the initial `torch.load(modelFile)` in
`WrappedTorchModule._loadModel` fails, then if CUDA is enabled the method
retries with `map_location='cpu'` after seeking the file object back to
position 0, and on success the instance's CUDA flag is disabled; if CUDA
is not enabled, the original exception propagates unchanged. -/
theorem loadModel_cuda_fallback {E M : Type} (cuda isStrPath : Bool) (pos : ℕ)
    (torchLoad : Bool → ℕ → Except E M) (e : E)
    (hfail : torchLoad false pos = Except.error e) :
    (cuda = true → isStrPath = false → ∀ m, torchLoad true 0 = Except.ok m →
      WrappedTorchModule_loadModel cuda isStrPath pos torchLoad =
        Except.ok (m, false)) ∧
    (cuda = false →
      WrappedTorchModule_loadModel cuda isStrPath pos torchLoad =
        Except.error e) := by
  constructor
  · intro hc hs m hok
    subst hc
    subst hs
    unfold WrappedTorchModule_loadModel
    rw [hfail]
    simp [hok]
  · intro hc
    subst hc
    unfold WrappedTorchModule_loadModel
    rw [hfail]
    simp

/-- Witness for `loadModel_cuda_fallback`: a load fixture that fails
without `map_location='cpu'` and succeeds from position 0 with it; with
CUDA enabled the retry succeeds and disables the CUDA flag. -/
theorem loadModel_cuda_fallback_witness :
    fixtureTorchLoad false 5 = Except.error 1 ∧
    WrappedTorchModule_loadModel true false 5 fixtureTorchLoad =
      Except.ok (7, false) :=
  ⟨rfl, (loadModel_cuda_fallback true false 5 fixtureTorchLoad 1 rfl).1 rfl rfl 7 rfl⟩

theorem makeOptimizer_fields (t t' : OptimiserParamsState)
    (h : Optimiser_makeOptimizer t = Except.ok t') :
    t'.lr = t.lr ∧ t'.start_decay = t.start_decay ∧ t'.optimizerLr = some t.lr := by
  unfold Optimiser_makeOptimizer at h
  split at h
  · obtain rfl := Except.ok.inj h
    exact ⟨rfl, rfl, rfl⟩
  · split at h
    · obtain rfl := Except.ok.inj h
      exact ⟨rfl, rfl, rfl⟩
    · exact absurd h (by simp)

/-- C4: each call to `_Optimiser.updateLearningRate(ppl, epoch)` (entered,
as always in this class, with the `start_decay` flag off) multiplies the
learning rate by `lr_decay` if and only if `start_decay_at` is set and
`epoch >= start_decay_at`, or a previous `ppl` was recorded and the
current `ppl` is strictly greater; otherwise the learning rate is
unchanged.  The decay flag is reset before the call returns, so a decay
decision never carries over, and the torch optimizer is rebuilt with the
current learning rate. -/
theorem updateLearningRate_spec (s : OptimiserParamsState) (ppl : ℚ) (epoch : ℤ)
    (s' : OptimiserParamsState) (hflag : s.start_decay = false)
    (hupd : Optimiser_updateLearningRate s ppl epoch = Except.ok s') :
    (((∃ a, s.start_decay_at = some a ∧ epoch ≥ a) ∨
      (∃ lp, s.last_ppl = some lp ∧ ppl > lp)) → s'.lr = s.lr * s.lr_decay) ∧
    ((¬ ((∃ a, s.start_decay_at = some a ∧ epoch ≥ a) ∨
      (∃ lp, s.last_ppl = some lp ∧ ppl > lp))) → s'.lr = s.lr) ∧
    s'.start_decay = false ∧ s'.optimizerLr = some s'.lr := by
  unfold Optimiser_updateLearningRate at hupd
  rcases hsd : s.start_decay_at with _ | a <;> rcases hlp : s.last_ppl with _ | lp
  · simp only [hsd, hlp, hflag, Bool.false_eq_true, if_false] at hupd
    obtain ⟨h1, h2, h3⟩ := makeOptimizer_fields _ _ hupd
    dsimp only at h1 h2 h3
    refine ⟨?_, fun _ => h1, h2, by rw [h3, h1]⟩
    rintro (⟨a', ha', _⟩ | ⟨lp', hlp', _⟩)
    · cases ha'
    · cases hlp'
  · by_cases hplp : ppl > lp
    · simp only [hsd, hlp, hflag, hplp, if_true, if_pos] at hupd
      obtain ⟨h1, h2, h3⟩ := makeOptimizer_fields _ _ hupd
      dsimp only at h1 h2 h3
      refine ⟨fun _ => h1, ?_, h2, by rw [h3, h1]⟩
      intro hn
      exact absurd (Or.inr ⟨lp, rfl, hplp⟩) hn
    · simp only [hsd, hlp, hflag, hplp, if_false, Bool.false_eq_true] at hupd
      obtain ⟨h1, h2, h3⟩ := makeOptimizer_fields _ _ hupd
      dsimp only at h1 h2 h3
      refine ⟨?_, fun _ => h1, h2, by rw [h3, h1]⟩
      rintro (⟨a', ha', _⟩ | ⟨lp', hlp', hplp'⟩)
      · cases ha'
      · cases hlp'
        exact absurd hplp' hplp
  · by_cases hea : epoch ≥ a
    · simp only [hsd, hlp, hflag, hea, if_true, if_pos] at hupd
      obtain ⟨h1, h2, h3⟩ := makeOptimizer_fields _ _ hupd
      dsimp only at h1 h2 h3
      refine ⟨fun _ => h1, ?_, h2, by rw [h3, h1]⟩
      intro hn
      exact absurd (Or.inl ⟨a, rfl, hea⟩) hn
    · simp only [hsd, hlp, hflag, hea, if_false, Bool.false_eq_true] at hupd
      obtain ⟨h1, h2, h3⟩ := makeOptimizer_fields _ _ hupd
      dsimp only at h1 h2 h3
      refine ⟨?_, fun _ => h1, h2, by rw [h3, h1]⟩
      rintro (⟨a', ha', hea'⟩ | ⟨lp', hlp', _⟩)
      · cases ha'
        exact absurd hea' hea
      · cases hlp'
  · by_cases hea : epoch ≥ a
    · by_cases hplp : ppl > lp <;>
        [skip; skip] <;>
        simp only [hsd, hlp, hflag, hea, hplp, if_true, if_false, if_pos,
          Bool.false_eq_true] at hupd <;>
        obtain ⟨h1, h2, h3⟩ := makeOptimizer_fields _ _ hupd <;>
        dsimp only at h1 h2 h3 <;>
        refine ⟨fun _ => h1, ?_, h2, by rw [h3, h1]⟩ <;>
        intro hn <;>
        exact absurd (Or.inl ⟨a, rfl, hea⟩) hn
    · by_cases hplp : ppl > lp
      · simp only [hsd, hlp, hflag, hea, hplp, if_true, if_false, if_pos,
          Bool.false_eq_true] at hupd
        obtain ⟨h1, h2, h3⟩ := makeOptimizer_fields _ _ hupd
        dsimp only at h1 h2 h3
        refine ⟨fun _ => h1, ?_, h2, by rw [h3, h1]⟩
        intro hn
        exact absurd (Or.inr ⟨lp, rfl, hplp⟩) hn
      · simp only [hsd, hlp, hflag, hea, hplp, if_false, Bool.false_eq_true] at hupd
        obtain ⟨h1, h2, h3⟩ := makeOptimizer_fields _ _ hupd
        dsimp only at h1 h2 h3
        refine ⟨?_, fun _ => h1, h2, by rw [h3, h1]⟩
        rintro (⟨a', ha', hea'⟩ | ⟨lp', hlp', hplp'⟩)
        · cases ha'
          exact absurd hea' hea
        · cases hlp'
          exact absurd hplp' hplp

/-- Witness for `updateLearningRate_spec`: `start_decay_at = 5` and
`epoch = 7`, so the learning rate 1 is decayed by the factor 1/2 and the
torch optimizer is rebuilt with the new rate. -/
theorem updateLearningRate_spec_witness :
    ({ lr := 1, max_grad_norm := 10, method := "adam", lr_decay := 1 / 2,
       start_decay_at := some 5, start_decay := false, last_ppl := none,
       use_shrinkage := true, optimizerLr := some 1 } :
        OptimiserParamsState).start_decay = false ∧
    Optimiser_updateLearningRate
        { lr := 1, max_grad_norm := 10, method := "adam", lr_decay := 1 / 2,
          start_decay_at := some 5, start_decay := false, last_ppl := none,
          use_shrinkage := true, optimizerLr := some 1 } 3 7 =
      Except.ok
        { lr := 1 / 2, max_grad_norm := 10, method := "adam", lr_decay := 1 / 2,
          start_decay_at := some 5, start_decay := false, last_ppl := some 3,
          use_shrinkage := true, optimizerLr := some (1 / 2) } ∧
    ((((∃ a, (some (5 : ℤ) : Option ℤ) = some a ∧ (7 : ℤ) ≥ a) ∨
        (∃ lp, (none : Option ℚ) = some lp ∧ (3 : ℚ) > lp)) →
        ({ lr := 1 / 2, max_grad_norm := 10, method := "adam", lr_decay := 1 / 2,
           start_decay_at := some 5, start_decay := false, last_ppl := some 3,
           use_shrinkage := true, optimizerLr := some (1 / 2) } :
            OptimiserParamsState).lr = 1 * (1 / 2))) :=
  ⟨rfl, by norm_num [Optimiser_updateLearningRate, Optimiser_makeOptimizer, validOptimMethods],
    fun h =>
      ((updateLearningRate_spec
        { lr := 1, max_grad_norm := 10, method := "adam", lr_decay := 1 / 2,
          start_decay_at := some 5, start_decay := false, last_ppl := none,
          use_shrinkage := true, optimizerLr := some 1 } 3 7
        { lr := 1 / 2, max_grad_norm := 10, method := "adam", lr_decay := 1 / 2,
          start_decay_at := some 5, start_decay := false, last_ppl := some 3,
          use_shrinkage := true, optimizerLr := some (1 / 2) } rfl
        (by norm_num [Optimiser_updateLearningRate, Optimiser_makeOptimizer, validOptimMethods])).1 h)⟩

/-- C8: when `optimiser='lbfgs'` is selected, `NNOptimiser.__init__`
replaces any supplied batch size by `1e12` (so the whole training set is
handled as one batch), `_Optimiser._makeOptimizer` turns `use_shrinkage`
off, and `_Optimiser.step` consequently performs no gradient shrinkage:
the gradients of the backward pass reach the torch optimizer unchanged. -/
theorem lbfgs_single_batch_no_shrinkage (batchSize : Option ℚ)
    (le : NNLossEvaluatorSpec) (st : NNOptimiserState)
    (lr mgn ld : ℚ) (sda : Option ℤ) (os : OptimiserParamsState)
    (mgnR : ℝ) (params : List (List ℝ))
    (hinit : NNOptimiser_init (some le) "lbfgs" batchSize = Except.ok st)
    (hoinit : Optimiser_init "lbfgs" lr mgn ld sda = Except.ok os) :
    st.batchSize = 10 ^ 12 ∧ os.use_shrinkage = false ∧
    Optimiser_step os.use_shrinkage mgnR params = params := by
  have hbs : st.batchSize = 10 ^ 12 := by
    unfold NNOptimiser_init at hinit
    obtain rfl := Except.ok.inj hinit
    simp
  have hus : os.use_shrinkage = false := by
    unfold Optimiser_init Optimiser_makeOptimizer at hoinit
    split at hoinit
    next h => simp [validOptimMethods] at h
    next h =>
      split at hoinit
      next =>
        obtain rfl := Except.ok.inj hoinit
        rfl
      next h2 => exact absurd rfl h2
  refine ⟨hbs, hus, ?_⟩
  rw [hus]
  rfl

/-- Witness for `lbfgs_single_batch_no_shrinkage`: a supplied batch size
of 5 is replaced by `1e12`, the wrapped LBFGS optimiser is built with
`use_shrinkage = False`, and `step` leaves the gradients unchanged. -/
theorem lbfgs_single_batch_no_shrinkage_witness :
    NNOptimiser_init
        (some (NNLossEvaluatorSpec.classification ClassificationLossFunction.CROSSENTROPY))
        "lbfgs" (some 5) =
      Except.ok
        { lossEvaluator :=
            NNLossEvaluatorSpec.classification ClassificationLossFunction.CROSSENTROPY,
          optimiser := "lbfgs", batchSize := 10 ^ 12 } ∧
    Optimiser_init "lbfgs" 1 10 1 none =
      Except.ok
        { lr := 1, max_grad_norm := 10, method := "lbfgs", lr_decay := 1,
          start_decay_at := none, start_decay := false, last_ppl := none,
          use_shrinkage := false, optimizerLr := some 1 } ∧
    (({ lossEvaluator :=
          NNLossEvaluatorSpec.classification ClassificationLossFunction.CROSSENTROPY,
        optimiser := "lbfgs", batchSize := 10 ^ 12 } : NNOptimiserState).batchSize = 10 ^ 12 ∧
     ({ lr := 1, max_grad_norm := 10, method := "lbfgs", lr_decay := 1,
        start_decay_at := none, start_decay := false, last_ppl := none,
        use_shrinkage := false, optimizerLr := some 1 } :
          OptimiserParamsState).use_shrinkage = false ∧
     Optimiser_step
        ({ lr := 1, max_grad_norm := 10, method := "lbfgs", lr_decay := 1,
           start_decay_at := none, start_decay := false, last_ppl := none,
           use_shrinkage := false, optimizerLr := some 1 } :
             OptimiserParamsState).use_shrinkage 0 [] = []) :=
  ⟨by decide, by decide,
    lbfgs_single_batch_no_shrinkage (some 5)
      (NNLossEvaluatorSpec.classification ClassificationLossFunction.CROSSENTROPY)
      { lossEvaluator :=
          NNLossEvaluatorSpec.classification ClassificationLossFunction.CROSSENTROPY,
        optimiser := "lbfgs", batchSize := 10 ^ 12 }
      1 10 1 none
      { lr := 1, max_grad_norm := 10, method := "lbfgs", lr_decay := 1,
        start_decay_at := none, start_decay := false, last_ppl := none,
        use_shrinkage := false, optimizerLr := some 1 }
      0 [] (by decide) (by decide)⟩

/-- C9 (counterexample): when `nnOptimiserParams` explicitly maps
`"lossEvaluator"` to Python `None`, the key is present, so
`TorchVectorRegressionModel.__init__` does not insert its default, and the
fit path does construct `NNOptimiser` with `lossEvaluator=None`, which
raises the `ValueError` — refuting that the adapters' fit paths can never
trigger this error. -/
theorem lossEvaluator_explicit_none_error :
    torchVectorRegressionModel_lossEvaluatorParam (some none) = none ∧
    NNOptimiser_init (torchVectorRegressionModel_lossEvaluatorParam (some none))
        "adam" none =
      Except.error "Must provide a loss evaluator" :=
  ⟨rfl, rfl⟩

/-- C9 (amended): `NNOptimiser.__init__` raises `ValueError` exactly when
`lossEvaluator` is `None`; the adapter models insert their default loss
evaluator (MSE regression loss, respectively cross-entropy classification
loss) whenever the `"lossEvaluator"` key is absent from
`nnOptimiserParams`, so their fit path never triggers this error unless
the caller explicitly supplies `lossEvaluator=None` under that key. -/
theorem lossEvaluator_required_and_defaulted :
    (∀ (le : Option NNLossEvaluatorSpec) (opt : String) (bs : Option ℚ),
      (∃ msg, NNOptimiser_init le opt bs = Except.error msg) ↔ le = none) ∧
    torchVectorRegressionModel_lossEvaluatorParam none =
      some (NNLossEvaluatorSpec.regression RegressionLossFunction.MSELOSS) ∧
    torchVectorClassificationModel_lossEvaluatorParam none =
      some (NNLossEvaluatorSpec.classification ClassificationLossFunction.CROSSENTROPY) ∧
    (∀ (p : Option (Option NNLossEvaluatorSpec)) (opt : String) (bs : Option ℚ),
      p ≠ some none →
      ∃ st, NNOptimiser_init (torchVectorRegressionModel_lossEvaluatorParam p)
        opt bs = Except.ok st) ∧
    (∀ (p : Option (Option NNLossEvaluatorSpec)) (opt : String) (bs : Option ℚ),
      p ≠ some none →
      ∃ st, NNOptimiser_init (torchVectorClassificationModel_lossEvaluatorParam p)
        opt bs = Except.ok st) := by
  refine ⟨?_, rfl, rfl, ?_, ?_⟩
  · intro le opt bs
    constructor
    · rintro ⟨msg, hmsg⟩
      cases le with
      | none => rfl
      | some l => simp [NNOptimiser_init] at hmsg
    · rintro rfl
      exact ⟨"Must provide a loss evaluator", rfl⟩
  · intro p opt bs hp
    cases p with
    | none => exact ⟨_, rfl⟩
    | some v =>
      cases v with
      | none => exact absurd rfl hp
      | some l => exact ⟨_, rfl⟩
  · intro p opt bs hp
    cases p with
    | none => exact ⟨_, rfl⟩
    | some v =>
      cases v with
      | none => exact absurd rfl hp
      | some l => exact ⟨_, rfl⟩

/-- Witness for `lossEvaluator_required_and_defaulted`: with the key
absent, the regression adapter's default makes the constructor succeed. -/
theorem lossEvaluator_required_and_defaulted_witness :
    ((none : Option (Option NNLossEvaluatorSpec)) ≠ some none) ∧
    (∃ st, NNOptimiser_init
      (torchVectorRegressionModel_lossEvaluatorParam none) "adam" none =
        Except.ok st) :=
  ⟨by decide,
    lossEvaluator_required_and_defaulted.2.2.2.1 none "adam" none (by decide)⟩

theorem list_sum_map_div (y : List ℚ) (c : ℚ) :
    (y.map (fun x => x / c)).sum = y.sum / c := by
  induction y with
  | nil => simp
  | cons a l ih => simp [ih, add_div]

/-- C10: each row of the data frame returned by
`TorchVectorClassificationModel._predictClassProbabilities` equals the raw
model outputs of that row divided by their row sum, and therefore sums to
1 whenever the raw row sum is nonzero. -/
theorem predictClassProbabilities_rows_normalised (rows : List (List ℚ))
    (i : ℕ) (y : List ℚ) (hy : rows[i]? = some y) :
    (TorchVectorClassificationModel_predictClassProbabilities rows)[i]? =
      some (y.map (fun x => x / y.sum)) ∧
    (y.sum ≠ 0 → (y.map (fun x => x / y.sum)).sum = 1) := by
  constructor
  · unfold TorchVectorClassificationModel_predictClassProbabilities
    rw [List.getElem?_map, hy]
    rfl
  · intro h
    rw [list_sum_map_div, div_self h]

/-- Witness for `predictClassProbabilities_rows_normalised`: the single
raw output row `[1, 3]` becomes `[1/4, 3/4]`, which sums to 1. -/
theorem predictClassProbabilities_rows_normalised_witness :
    (([[(1 : ℚ), 3]] : List (List ℚ))[0]? = some [1, 3]) ∧
    ((TorchVectorClassificationModel_predictClassProbabilities [[(1 : ℚ), 3]])[0]? =
        some ([(1 : ℚ), 3].map (fun x => x / [(1 : ℚ), 3].sum)) ∧
      ([(1 : ℚ), 3].sum ≠ 0 → ([(1 : ℚ), 3].map (fun x => x / [(1 : ℚ), 3].sum)).sum = 1)) :=
  ⟨rfl, predictClassProbabilities_rows_normalised [[(1 : ℚ), 3]] 0 [1, 3] rfl⟩

theorem listSum_sq_nonneg (l : List ℝ) : 0 ≤ (l.map (fun x => x ^ 2)).sum := by
  apply List.sum_nonneg
  intro x hx
  obtain ⟨y, _, rfl⟩ := List.mem_map.mp hx
  positivity

theorem gradNormAccum_nonneg (params : List (List ℝ)) : 0 ≤ gradNormAccum params := by
  apply List.sum_nonneg
  intro x hx
  obtain ⟨p, _, rfl⟩ := List.mem_map.mp hx
  positivity

theorem listSum_nonneg_eq_zero (l : List ℝ) (h : ∀ x ∈ l, 0 ≤ x)
    (hs : l.sum = 0) : ∀ x ∈ l, x = 0 := by
  induction l with
  | nil => intro x hx; cases hx
  | cons a t ih =>
    have hta : 0 ≤ a := h a (by simp)
    have htt : 0 ≤ t.sum := List.sum_nonneg (fun x hx => h x (by simp [hx]))
    have hsum : a + t.sum = 0 := by simpa using hs
    have ha0 : a = 0 := by linarith
    have ht0 : t.sum = 0 := by linarith
    intro x hx
    rcases List.mem_cons.mp hx with rfl | hx
    · exact ha0
    · exact ih (fun y hy => h y (by simp [hy])) ht0 x hx

theorem tensorNorm_eq_zero (t : List ℝ) (h : tensorNorm t = 0) :
    ∀ x ∈ t, x = 0 := by
  unfold tensorNorm at h
  have hsq : ((t.map (fun x => x ^ 2)).sum) = 0 :=
    (Real.sqrt_eq_zero (listSum_sq_nonneg t)).mp h
  intro x hx
  have hx2 : x ^ 2 = 0 := by
    refine listSum_nonneg_eq_zero _ ?_ hsq (x ^ 2) (List.mem_map_of_mem _ hx)
    intro y hy
    obtain ⟨z, _, rfl⟩ := List.mem_map.mp hy
    positivity
  exact pow_eq_zero_iff (by norm_num) |>.mp hx2

theorem gradNorm_zero_entries (params : List (List ℝ))
    (h : gradNorm params = 0) : ∀ p ∈ params, ∀ x ∈ p, x = 0 := by
  unfold gradNorm at h
  have hA : gradNormAccum params = 0 :=
    (Real.sqrt_eq_zero (gradNormAccum_nonneg params)).mp h
  unfold gradNormAccum at hA
  intro p hp
  have hsq : tensorNorm p ^ 2 = 0 := by
    refine listSum_nonneg_eq_zero _ ?_ hA _ (List.mem_map_of_mem _ hp)
    intro y hy
    obtain ⟨q, _, rfl⟩ := List.mem_map.mp hy
    positivity
  exact tensorNorm_eq_zero p (pow_eq_zero_iff (by norm_num) |>.mp hsq)

theorem tensorNorm_map_mul (p : List ℝ) (c : ℝ) :
    tensorNorm (p.map (fun x => x * c)) = tensorNorm p * |c| := by
  unfold tensorNorm
  rw [List.map_map]
  have hfun : ((fun x => x ^ 2) ∘ fun x => x * c) = fun x => x ^ 2 * c ^ 2 := by
    funext x
    simp [mul_pow]
  rw [hfun, List.sum_map_mul_right, Real.sqrt_mul (listSum_sq_nonneg p),
    Real.sqrt_sq_eq_abs]

theorem gradNorm_map_mul (params : List (List ℝ)) (c : ℝ) :
    gradNorm (params.map (fun p => p.map (fun x => x * c))) =
      gradNorm params * |c| := by
  unfold gradNorm gradNormAccum
  rw [List.map_map]
  have hfun : ((fun p => tensorNorm p ^ 2) ∘ fun p => p.map (fun x => x * c)) =
      fun p => tensorNorm p ^ 2 * c ^ 2 := by
    funext p
    simp [tensorNorm_map_mul, mul_pow, sq_abs]
  rw [hfun, List.sum_map_mul_right,
    Real.sqrt_mul
      (show (0 : ℝ) ≤ (List.map (fun p => tensorNorm p ^ 2) params).sum from
        gradNormAccum_nonneg params),
    Real.sqrt_sq_eq_abs]

theorem list_map_fixed_of_mem {α : Type} (l : List α) (f : α → α)
    (h : ∀ p ∈ l, f p = p) : l.map f = l := by
  induction l with
  | nil => rfl
  | cons a t ih =>
    simp only [List.map_cons, h a (by simp),
      ih (fun p hp => h p (by simp [hp]))]

theorem map_mul_of_all_zero (p : List ℝ) (h : ∀ x ∈ p, x = 0) (c : ℝ) :
    p.map (fun x => x * c) = p := by
  refine list_map_fixed_of_mem p _ ?_
  intro x hx
  rw [h x hx, zero_mul]

/-- C3 (amended): in `_Optimiser.step` with shrinkage enabled, with `g`
the square root of the sum of squared gradient norms over all parameters
after the backward pass: if `g > max_grad_norm` then every parameter
gradient is multiplied by `max_grad_norm / g` — so, provided
`max_grad_norm >= 0`, the resulting total gradient norm equals
`max_grad_norm` — and if `g <= max_grad_norm` (including `g = 0`) every
parameter gradient is left unchanged. -/
theorem step_gradient_clipping (m : ℝ) (params : List (List ℝ)) :
    (gradNorm params > m →
      stepShrinkage m params =
        params.map (fun p => p.map (fun x => x * (m / gradNorm params))) ∧
      (0 ≤ m → gradNorm (stepShrinkage m params) = m)) ∧
    (gradNorm params ≤ m → stepShrinkage m params = params) := by
  have hg0 : 0 ≤ gradNorm params := Real.sqrt_nonneg _
  constructor
  · intro hgm
    rcases lt_or_eq_of_le hg0 with hg | hg
    · have hsh : m / gradNorm params < 1 := (div_lt_one hg).mpr hgm
      have heq : stepShrinkage m params =
          params.map (fun p => p.map (fun x => x * (m / gradNorm params))) := by
        simp only [stepShrinkage, gt_iff_lt, hg, if_true, hsh]
      refine ⟨heq, ?_⟩
      intro hm
      rw [heq, gradNorm_map_mul,
        abs_of_nonneg (div_nonneg hm hg0), mul_comm,
        div_mul_cancel₀ m (ne_of_gt hg)]
    · have hgz : gradNorm params = 0 := hg.symm
      have hzero := gradNorm_zero_entries params hgz
      have hstep : stepShrinkage m params = params := by
        simp only [stepShrinkage, gt_iff_lt, hgz, lt_self_iff_false, if_false]
        exact list_map_fixed_of_mem params _ (fun p _ => rfl)
      constructor
      · rw [hstep, hgz, div_zero]
        symm
        refine list_map_fixed_of_mem params _ ?_
        intro p hp
        exact map_mul_of_all_zero p (hzero p hp) 0
      · intro hm
        rw [hgz] at hgm
        exact absurd hm (not_le.mpr hgm)
  · intro hgle
    rcases lt_or_eq_of_le hg0 with hg | hg
    · have hsh : ¬ m / gradNorm params < 1 :=
        not_lt.mpr ((one_le_div hg).mpr hgle)
      simp only [stepShrinkage, gt_iff_lt, hg, if_true, hsh, if_false]
      exact list_map_fixed_of_mem params _ (fun p _ => rfl)
    · have hgz : gradNorm params = 0 := hg.symm
      simp only [stepShrinkage, gt_iff_lt, hgz, lt_self_iff_false, if_false]
      exact list_map_fixed_of_mem params _ (fun p _ => rfl)

theorem gradNorm_pair_3_4 : gradNorm [[(3 : ℝ)], [4]] = 5 := by
  unfold gradNorm gradNormAccum tensorNorm
  simp only [List.map_cons, List.map_nil, List.sum_cons, List.sum_nil, add_zero]
  rw [Real.sq_sqrt (by norm_num : (0 : ℝ) ≤ 3 ^ 2),
    Real.sq_sqrt (by norm_num : (0 : ℝ) ≤ 4 ^ 2)]
  rw [show (3 : ℝ) ^ 2 + 4 ^ 2 = 5 ^ 2 by norm_num]
  exact Real.sqrt_sq (by norm_num)

/-- Witness for `step_gradient_clipping`: two single-entry gradients 3 and
4 give total norm 5 > 1 = `max_grad_norm`, so both are scaled by `1/5` and
the clipped total norm is exactly 1. -/
theorem step_gradient_clipping_witness :
    gradNorm [[(3 : ℝ)], [4]] > 1 ∧
    (stepShrinkage 1 [[(3 : ℝ)], [4]] =
        ([[(3 : ℝ)], [4]] : List (List ℝ)).map
          (fun p => p.map (fun x => x * (1 / gradNorm [[(3 : ℝ)], [4]]))) ∧
      (0 ≤ (1 : ℝ) → gradNorm (stepShrinkage 1 [[(3 : ℝ)], [4]]) = 1)) :=
  ⟨by rw [gradNorm_pair_3_4]; norm_num,
    (step_gradient_clipping 1 [[(3 : ℝ)], [4]]).1
      (by rw [gradNorm_pair_3_4]; norm_num)⟩

theorem gradNorm_single_1 : gradNorm [[(1 : ℝ)]] = 1 := by
  unfold gradNorm gradNormAccum tensorNorm
  simp only [List.map_cons, List.map_nil, List.sum_cons, List.sum_nil, add_zero]
  rw [Real.sq_sqrt (by norm_num : (0 : ℝ) ≤ 1 ^ 2), one_pow, Real.sqrt_one]

theorem gradNorm_single_neg_1 : gradNorm [[(-1 : ℝ)]] = 1 := by
  unfold gradNorm gradNormAccum tensorNorm
  simp only [List.map_cons, List.map_nil, List.sum_cons, List.sum_nil, add_zero]
  rw [Real.sq_sqrt (by norm_num : (0 : ℝ) ≤ (-1 : ℝ) ^ 2),
    show ((-1 : ℝ)) ^ 2 = 1 ^ 2 by norm_num, Real.sqrt_sq (by norm_num)]

/-- C3 (counterexample): with `max_grad_norm = -1` and a single gradient
`[1]`, the total gradient norm `g = 1` exceeds `max_grad_norm`, the
gradient is indeed multiplied by `max_grad_norm / g = -1`, but the
resulting total gradient norm is `1`, not `max_grad_norm = -1` — refuting
the claim's parenthetical for negative `max_grad_norm`. -/
theorem step_negative_clip_norm_counterexample :
    gradNorm [[(1 : ℝ)]] > (-1) ∧
    gradNorm (stepShrinkage (-1) [[(1 : ℝ)]]) = 1 ∧
    gradNorm (stepShrinkage (-1) [[(1 : ℝ)]]) ≠ (-1) := by
  have hpos : (0 : ℝ) < gradNorm [[(1 : ℝ)]] := by
    rw [gradNorm_single_1]; norm_num
  have hsh : (-1 : ℝ) / gradNorm [[(1 : ℝ)]] < 1 := by
    rw [gradNorm_single_1]; norm_num
  have hstep : stepShrinkage (-1) [[(1 : ℝ)]] = [[(-1 : ℝ)]] := by
    simp only [stepShrinkage, gt_iff_lt, hpos, if_true, hsh]
    rw [gradNorm_single_1]
    norm_num
  refine ⟨by rw [gradNorm_single_1]; norm_num, ?_, ?_⟩
  · rw [hstep, gradNorm_single_neg_1]
  · rw [hstep, gradNorm_single_neg_1]
    norm_num

end SensAI
